import Mathlib

/-!
Shallow embedding of the magebase/analytics service core.

The Go source is translated as follows: dynamic `map[string]interface{}`
payloads become association lists over an inductive `GoVal` of JSON-like
values; `float64` amounts and rates become exact rationals `ℚ`;
`time.Time` values become `Int` nanosecond counts; `uuid.New().String()`
becomes a deterministic counter-indexed generator (every generated string
is non-empty, matching the library's guarantee); the billing network call
outcome is an explicit boolean parameter of `TrackEvent`.
-/

namespace Analytics

/-- A dynamic Go value (`interface{}`) as it appears in event payloads:
strings, numbers (Go JSON numbers are `float64`, modelled as `ℚ`),
booleans, `time.Time` values (modelled as `Int` nanoseconds), `nil`,
string-keyed maps and slices. -/
inductive GoVal where
  | vstr (s : String)
  | vnum (q : ℚ)
  | vbool (b : Bool)
  | vtime (t : Int)
  | vnull
  | vmap (entries : List (String × GoVal))
  | varr (elems : List GoVal)

/-- A Go `map[string]interface{}`, modelled as an association list with
unique-key update semantics (`setKey` replaces an existing binding). -/
def GoMap := List (String × GoVal)

/-- Lookup of a key in a Go map modelled as an association list
(first binding wins; Go maps never hold duplicate keys). -/
def lookupKey {α : Type} : List (String × α) → String → Option α
  | [], _ => none
  | (k2, v) :: rest, k => if k2 = k then some v else lookupKey rest k

/-- Go map assignment `m[k] = v`: replace the binding if the key is
present, otherwise append a fresh binding. -/
def setKey {α : Type} : List (String × α) → String → α → List (String × α)
  | [], k, v => [(k, v)]
  | (k2, v2) :: rest, k, v =>
      if k2 = k then (k, v) :: rest else (k2, v2) :: setKey rest k v

/-- Go's `s.(string)` type assertion on a map lookup result, as used on
`enrichedData["event_type"]` in `TrackEvent`; validation guarantees the
value is a string there, so the default branch is unreachable on the
paths the theorems cover. -/
def asString : Option GoVal → String
  | some (.vstr s) => s
  | _ => ""

/-! ## SchemaValidator (kafka_consumer.go second compilation unit) -/

/-- A custom per-field validation rule.  The only rules the source
registers are closures requiring `event_type` to literally equal a given
string; note the Go closure only fails when the value *is* a string and
differs. -/
inductive CustomRule where
  | mustEqual (expected : String)

/-- Run a custom rule exactly as the registered Go closures do: a
non-string value passes, a string value must equal the expected tag. -/
def applyRule (r : CustomRule) (v : GoVal) : Except String Unit :=
  match r with
  | .mustEqual expected =>
    match v with
    | .vstr s =>
        if s = expected then .ok ()
        else .error ("event_type must be " ++ expected)
    | _ => .ok ()

/-- Source `EventSchema`: required field names, field-name to declared-type map,
and custom rules keyed by field name. -/
structure EventSchema where
  requiredFields : List String
  fieldTypes : List (String × String)
  customRules : List (String × CustomRule)

/-- The default schema registry built by `registerDefaultSchemas`:
`page_view`, `conversion` and the fallback `generic` schema. -/
def defaultSchemas : List (String × EventSchema) :=
  [ ("page_view",
     { requiredFields := ["event_type", "user_id"]
       fieldTypes := [("event_type", "string"), ("user_id", "string"),
                      ("page", "string"), ("properties", "map"),
                      ("session_id", "string"), ("ip_address", "string")]
       customRules := [("event_type", .mustEqual "page_view")] })
  , ("conversion",
     { requiredFields := ["event_type", "user_id"]
       fieldTypes := [("event_type", "string"), ("user_id", "string"),
                      ("page", "string"), ("properties", "map"),
                      ("amount", "float64"), ("currency", "string")]
       customRules := [("event_type", .mustEqual "conversion")] })
  , ("generic",
     { requiredFields := ["event_type", "user_id"]
       fieldTypes := [("event_type", "string"), ("user_id", "string"),
                      ("page", "string"), ("properties", "map"),
                      ("session_id", "string"), ("ip_address", "string")]
       customRules := [] }) ]

/-- Source `validateFieldType`: check one field against its declared type name;
unknown declared types only reject Go `nil`. -/
def validateFieldType (fieldName : String) (value : GoVal)
    (expectedType : String) : Except String Unit :=
  match expectedType with
  | "string" =>
      match value with
      | .vstr _ => .ok ()
      | _ => .error ("field " ++ fieldName ++ " must be a string")
  | "float64" =>
      match value with
      | .vnum _ => .ok ()
      | _ => .error ("field " ++ fieldName ++ " must be a float64")
  | "map" =>
      match value with
      | .vmap _ => .ok ()
      | _ => .error ("field " ++ fieldName ++ " must be a map")
  | "array" =>
      match value with
      | .varr _ => .ok ()
      | _ => .error ("field " ++ fieldName ++ " must be an array")
  | _ =>
      match value with
      | .vnull => .error ("field " ++ fieldName ++ " cannot be nil")
      | _ => .ok ()

/-- Source `validateRequiredFields`: every required field must be present. -/
def validateRequiredFields (eventData : GoMap) :
    List String → Except String Unit
  | [] => .ok ()
  | f :: rest =>
      match lookupKey eventData f with
      | none => .error ("required field " ++ f ++ " is missing")
      | some _ => validateRequiredFields eventData rest

/-- Source `validateFieldTypes`: type-check each declared field that is present. -/
def validateFieldTypes (eventData : GoMap) :
    List (String × String) → Except String Unit
  | [] => .ok ()
  | (f, ty) :: rest =>
      match lookupKey eventData f with
      | some v =>
          match validateFieldType f v ty with
          | .error e => .error e
          | .ok _ => validateFieldTypes eventData rest
      | none => validateFieldTypes eventData rest

/-- Source `applyCustomRules`: run each custom rule on its field when present. -/
def applyCustomRules (eventData : GoMap) :
    List (String × CustomRule) → Except String Unit
  | [] => .ok ()
  | (f, rule) :: rest =>
      match lookupKey eventData f with
      | some v =>
          match applyRule rule v with
          | .error e => .error ("custom validation failed for field " ++ f ++ ": " ++ e)
          | .ok _ => applyCustomRules eventData rest
      | none => applyCustomRules eventData rest

/-- Source `SchemaValidator.ValidateEvent`: require a string `event_type`, pick
the registered schema (falling back to `generic`), then check required
fields, field types and custom rules in that order, short-circuiting. -/
def ValidateEvent (schemas : List (String × EventSchema))
    (eventData : GoMap) : Except String Unit :=
  match lookupKey eventData "event_type" with
  | some (.vstr eventType) =>
      match (match lookupKey schemas eventType with
             | some sc => some sc
             | none => lookupKey schemas "generic") with
      | none => .error ("no schema found for event type: " ++ eventType)
      | some schema =>
          match validateRequiredFields eventData schema.requiredFields with
          | .error e => .error e
          | .ok _ =>
              match validateFieldTypes eventData schema.fieldTypes with
              | .error e => .error e
              | .ok _ => applyCustomRules eventData schema.customRules
  | _ => .error "event_type is required and must be a string"

/-! ## AnalyticsService (service.go) -/

/-- Source `AnalyticsEvent` (models.go): timestamps are `Int` nanoseconds. -/
structure AnalyticsEvent where
  id : String
  eventType : String
  userID : String
  page : String
  timestamp : Int
  properties : GoMap
  apiKey : String
  billingEventID : String
  source : String

/-- The deterministic stand-in for `uuid.New().String()`: the n-th
generated identifier.  Like the library's output it is never empty. -/
def uuidString (n : Nat) : String := "uuid-" ++ toString n

/-- The service's mutable state: the schema registry, the in-memory
event store keyed by event id, and the UUID generator position. -/
structure ServiceState where
  schemas : List (String × EventSchema)
  events : List (String × AnalyticsEvent)
  uuidCtr : Nat

/-- Source `NewAnalyticsService`: empty store, default schema registry. -/
def initialService : ServiceState :=
  { schemas := defaultSchemas, events := [], uuidCtr := 0 }

/-- One step of `enrichEventData`: set a key only when it is absent
(the Go `if _, exists := enriched[k]; !exists` pattern). -/
def addIfAbsent (m : GoMap) (k : String) (v : GoVal) : GoMap :=
  if (lookupKey m k).isSome then m else setKey m k v

/-- Source `enrichEventData`: copy the payload and fill in timestamp, session
id (which consumes one generated UUID when added), IP address, user
agent, source and an empty properties map, never overwriting
caller-supplied values.  `apiKey` and `userID` are parameters of the Go
method but unused by its body. -/
def enrichEventData (eventData : GoMap) (apiKey userID : String)
    (now : Int) (ctr : Nat) : GoMap × Nat :=
  let e1 := addIfAbsent eventData "timestamp" (.vtime now)
  let e2 := addIfAbsent e1 "session_id"
              (.vstr ("sess_" ++ (uuidString ctr).take 8))
  let ctr2 := if (lookupKey e1 "session_id").isSome then ctr else ctr + 1
  let e3 := addIfAbsent e2 "ip_address" (.vstr "127.0.0.1")
  let e4 := addIfAbsent e3 "user_agent"
              (.vstr "Mozilla/5.0 (compatible; AnalyticsService/1.0)")
  let e5 := addIfAbsent e4 "source" (.vstr "api")
  let e6 := addIfAbsent e5 "properties" (.vmap [])
  (e6, ctr2)

/-- Source `getStringValue`: safely extract a string, defaulting to "". -/
def getStringValue (eventData : GoMap) (key : String) : String :=
  match lookupKey eventData key with
  | some (.vstr s) => s
  | _ => ""

/-- Source `getMapValue`: safely extract a map, defaulting to an empty map. -/
def getMapValue (eventData : GoMap) (key : String) : GoMap :=
  match lookupKey eventData key with
  | some (.vmap m) => m
  | _ => []

/-- Source `AnalyticsService.TrackEvent`. `now` is the wall clock reading and
`billingErr` the outcome of the external `BillingClient.TrackAPICall`
network call (`true` means the call returned an error).  On validation
failure the error is returned and the state is untouched; otherwise the
event is built, a billing event id is generated on *both* billing
branches exactly as in the source, and the event is stored. -/
def TrackEvent (st : ServiceState) (eventData : GoMap)
    (apiKey userID : String) (now : Int) (billingErr : Bool) :
    Except String AnalyticsEvent × ServiceState :=
  match ValidateEvent st.schemas eventData with
  | .error e => (.error ("invalid event data: " ++ e), st)
  | .ok _ =>
      let enriched := enrichEventData eventData apiKey userID now st.uuidCtr
      let enrichedData := enriched.1
      let ctr := enriched.2
      let event : AnalyticsEvent :=
        { id := uuidString ctr
          eventType := asString (lookupKey enrichedData "event_type")
          userID := userID
          page := getStringValue enrichedData "page"
          timestamp := now
          properties := getMapValue enrichedData "properties"
          apiKey := apiKey
          billingEventID := ""
          source := "" }
      let ctr := ctr + 1
      let withBilling :=
        if billingErr then
          ({ event with billingEventID := uuidString ctr }, ctr + 1)
        else
          ({ event with billingEventID := uuidString ctr }, ctr + 1)
      let event2 := withBilling.1
      (.ok event2,
       { st with events := setKey st.events event2.id event2,
                 uuidCtr := withBilling.2 })

/-! ## GetUsage scan and billing summary (service.go) -/

/-- Nanoseconds per hour (Go `time.Hour`). -/
def nsPerHour : Int := 3600000000000

/-- Nanoseconds per day, the `endDate.Add(24*time.Hour)` offset. -/
def nsPerDay : Int := 24 * nsPerHour

/-- The `GetUsage` loop body condition: user id matches, the timestamp
is strictly after `startDate` (`Timestamp.After(startDate)`) and
strictly before `endDate.Add(24*time.Hour)`. -/
def eventInRange (e : AnalyticsEvent) (userID : String)
    (startD endD : Int) : Bool :=
  decide (e.userID = userID) && decide (startD < e.timestamp)
    && decide (e.timestamp < endD + nsPerDay)

/-- The Go `eventsByType[event.EventType]++` map increment. -/
def bumpCount : List (String × Int) → String → List (String × Int)
  | [], k => [(k, 1)]
  | (k2, c) :: rest, k =>
      if k2 = k then (k2, c + 1) :: rest else (k2, c) :: bumpCount rest k

/-- The `GetUsage` scan loop over the stored events, accumulating the
per-type counts and the total count. -/
def scanLoop (userID : String) (startD endD : Int) :
    List AnalyticsEvent → List (String × Int) × Int → List (String × Int) × Int
  | [], acc => acc
  | ev :: rest, acc =>
      if eventInRange ev userID startD endD then
        scanLoop userID startD endD rest (bumpCount acc.1 ev.eventType, acc.2 + 1)
      else
        scanLoop userID startD endD rest acc

/-- The `GetUsage` scan over all stored events for already-parsed
bounds: returns `(eventsByType, totalEvents)`. -/
def scanEvents (evs : List AnalyticsEvent) (userID : String)
    (startD endD : Int) : List (String × Int) × Int :=
  scanLoop userID startD endD evs ([], 0)

/-- Source `BillingSummary`, with `float64` costs modelled as `ℚ`. -/
structure BillingSummary where
  totalCost : ℚ
  costBreakdown : List (String × ℚ)
  currency : String

/-- The per-event price of the `switch eventType` pricing table in
`calculateBillingSummary`: 0.001 for page_view, 0.002 for click, 0.01
for conversion and 0.0005 otherwise. -/
def perEventRate (eventType : String) : ℚ :=
  match eventType with
  | "page_view" => 1 / 1000
  | "click" => 2 / 1000
  | "conversion" => 1 / 100
  | _ => 5 / 10000

/-- The `calculateBillingSummary` loop: for each (type, count) pair set
`costBreakdown[type] = count * rate` and accumulate `totalCost`. -/
def calcBillingLoop :
    List (String × Int) → List (String × ℚ) × ℚ → List (String × ℚ) × ℚ
  | [], acc => acc
  | (t, c) :: rest, acc =>
      let cost : ℚ := (c : ℚ) * perEventRate t
      calcBillingLoop rest (setKey acc.1 t cost, acc.2 + cost)

/-- Source `AnalyticsService.calculateBillingSummary`. -/
def calculateBillingSummary (eventsByType : List (String × Int)) :
    BillingSummary :=
  let res := calcBillingLoop eventsByType ([], 0)
  { totalCost := res.2, costBreakdown := res.1, currency := "USD" }

/-! ## RateLimiter (funnel_service.go second compilation unit) -/

/-- Source `RateLimiter` state: per composite key the timestamps of admitted
requests (nanoseconds), plus the shared limit and window. -/
structure RLState where
  requests : List (String × List Int)
  limit : Nat
  window : Int

/-- Source `NewRateLimiter`: limit 100 requests per 1-minute window. -/
def newRateLimiter : RLState :=
  { requests := [], limit := 100, window := 60 * 1000000000 }

/-- Source `cleanupOldRequests`: keep only the timestamps strictly after
`now - window` (`reqTime.After(cutoff)`). -/
def cleanupOldRequests (st : RLState) (key : String) (now : Int) : RLState :=
  match lookupKey st.requests key with
  | none => st
  | some reqs =>
      { st with requests :=
          setKey st.requests key (reqs.filter (fun t => now - st.window < t)) }

/-- Source `RateLimiter.AllowRequest`: purge old timestamps for
`userID:endpoint`, reject when the remaining count has reached the
limit, otherwise append `now` and admit. -/
def AllowRequest (st : RLState) (userID endpoint : String) (now : Int) :
    Bool × RLState :=
  let key := userID ++ ":" ++ endpoint
  let st1 := cleanupOldRequests st key now
  let cur := (lookupKey st1.requests key).getD []
  if st1.limit ≤ cur.length then (false, st1)
  else (true, { st1 with requests := setKey st1.requests key (cur ++ [now]) })

/-! ## MD5 (crypto/md5, as consumed by the sampler)

A byte-level embedding of the MD5 digest over `Nat` with explicit
`% 2^32` reductions, used by `RequestSampler.ShouldSample` through the
first four digest bytes. -/

/-- Reduce to a 32-bit word. -/
def w32 (n : Nat) : Nat := n % 4294967296

/-- 32-bit left rotation of a word `x < 2^32`. -/
def rotl32 (x s : Nat) : Nat :=
  (x * 2 ^ s) % 4294967296 + x / 2 ^ (32 - s)

/-- The 64 MD5 sine-derived additive constants of RFC 1321. -/
def md5K : List Nat :=
  [3614090360, 3905402710, 606105819, 3250441966, 4118548399, 1200080426,
   2821735955, 4249261313, 1770035416, 2336552879, 4294925233, 2304563134,
   1804603682, 4254626195, 2792965006, 1236535329, 4129170786, 3225465664,
   643717713, 3921069994, 3593408605, 38016083, 3634488961, 3889429448,
   568446438, 3275163606, 4107603335, 1163531501, 2850285829, 4243563512,
   1735328473, 2368359562, 4294588738, 2272392833, 1839030562, 4259657740,
   2763975236, 1272893353, 4139469664, 3200236656, 681279174, 3936430074,
   3572445317, 76029189, 3654602809, 3873151461, 530742520, 3299628645,
   4096336452, 1126891415, 2878612391, 4237533241, 1700485571, 2399980690,
   4293915773, 2240044497, 1873313359, 4264355552, 2734768916, 1309151649,
   4149444226, 3174756917, 718787259, 3951481745]

/-- The 64 MD5 per-operation rotation amounts. -/
def md5S : List Nat :=
  [7, 12, 17, 22, 7, 12, 17, 22, 7, 12, 17, 22, 7, 12, 17, 22,
   5, 9, 14, 20, 5, 9, 14, 20, 5, 9, 14, 20, 5, 9, 14, 20,
   4, 11, 16, 23, 4, 11, 16, 23, 4, 11, 16, 23, 4, 11, 16, 23,
   6, 10, 15, 21, 6, 10, 15, 21, 6, 10, 15, 21, 6, 10, 15, 21]

/-- MD5 padding: append `0x80`, zero bytes up to 56 mod 64, then the
original bit length as eight little-endian bytes. -/
def md5Pad (msg : List Nat) : List Nat :=
  let len := msg.length
  let zeros := (119 - len % 64) % 64
  let bitLen := (8 * len) % 2 ^ 64
  msg ++ [128] ++ List.replicate zeros 0 ++
    ((List.range 8).map (fun i => bitLen / 2 ^ (8 * i) % 256))

/-- Split a byte list into 64-byte blocks. -/
def chunks64 : List Nat → List (List Nat)
  | [] => []
  | b :: rest => ((b :: rest).take 64) :: chunks64 ((b :: rest).drop 64)
  termination_by l => l.length
  decreasing_by simp; omega

/-- The j-th little-endian 32-bit word of a 64-byte block. -/
def blockWord (block : List Nat) (j : Nat) : Nat :=
  block.getD (4 * j) 0 + block.getD (4 * j + 1) 0 * 256 +
    block.getD (4 * j + 2) 0 * 65536 + block.getD (4 * j + 3) 0 * 16777216

/-- The MD5 round function and message index for operation `i`
(bitwise complement of a word `b < 2^32` is `4294967295 - b`). -/
def md5FG (i b c d : Nat) : Nat × Nat :=
  if i < 16 then ((b &&& c) ||| ((4294967295 - b) &&& d), i)
  else if i < 32 then ((d &&& b) ||| ((4294967295 - d) &&& c), (5 * i + 1) % 16)
  else if i < 48 then (b ^^^ c ^^^ d, (3 * i + 5) % 16)
  else (c ^^^ (b ||| (4294967295 - d)), (7 * i) % 16)

/-- One of the 64 MD5 operations on the running state `(a, b, c, d)`. -/
def md5Step (M : Nat → Nat) (st : Nat × Nat × Nat × Nat) (i : Nat) :
    Nat × Nat × Nat × Nat :=
  let a := st.1
  let b := st.2.1
  let c := st.2.2.1
  let d := st.2.2.2
  let fg := md5FG i b c d
  let f := w32 (fg.1 + a + md5K.getD i 0 + M fg.2)
  (d, w32 (b + rotl32 f (md5S.getD i 0)), b, c)

/-- Process one 64-byte block: run the 64 operations and add the result
into the running digest words. -/
def md5Block (st : Nat × Nat × Nat × Nat) (block : List Nat) :
    Nat × Nat × Nat × Nat :=
  let res := (List.range 64).foldl (md5Step (blockWord block)) st
  (w32 (st.1 + res.1), w32 (st.2.1 + res.2.1),
   w32 (st.2.2.1 + res.2.2.1), w32 (st.2.2.2 + res.2.2.2))

/-- The MD5 initial digest words A, B, C, D. -/
def md5Init : Nat × Nat × Nat × Nat :=
  (1732584193, 4023233417, 2562383102, 271733878)

/-- The four little-endian bytes of a 32-bit word. -/
def wordLEBytes (w : Nat) : List Nat :=
  [w % 256, w / 256 % 256, w / 65536 % 256, w / 16777216 % 256]

/-- The full 16-byte MD5 digest of a byte sequence. -/
def md5Digest (msg : List Nat) : List Nat :=
  let res := (chunks64 (md5Pad msg)).foldl md5Block md5Init
  wordLEBytes res.1 ++ wordLEBytes res.2.1 ++
    wordLEBytes res.2.2.1 ++ wordLEBytes res.2.2.2

/-- The UTF-8 bytes of a string, as Go's `[]byte(s)` conversion. -/
def strBytes (s : String) : List Nat :=
  s.toUTF8.toList.map (fun b => b.toNat)

/-- Source `hashInt` of `ShouldSample`: the first four MD5 digest bytes of the
input combined little-endian
(`hash[0] + hash[1]*256 + hash[2]*65536 + hash[3]*16777216`). -/
def md5HashInt (s : String) : Nat :=
  let h := md5Digest (strBytes s)
  h.getD 0 0 + h.getD 1 0 * 256 + h.getD 2 0 * 65536 + h.getD 3 0 * 16777216

/-! ## RequestSampler (request_sampler.go) -/

/-- Source `RequestSampler` state: the per-endpoint rate map (`float64` rates
as `ℚ`) and the seeded `math/rand` generator, modelled by its seed —
`ShouldSample` never reads it. -/
structure SamplerState where
  sampleRates : List (String × ℚ)
  rngSeed : Nat

/-- Source `NewRequestSampler` with a given seed (`time.Now().UnixNano()`). -/
def newRequestSampler (seed : Nat) : SamplerState :=
  { sampleRates := [], rngSeed := seed }

/-- Source `RequestSampler.ShouldSample`: a missing endpoint reads as the Go
zero value 0, which (like an explicitly stored 0) is replaced by the
default rate 1.0; a rate at least 1 always samples, a non-positive rate
never does, and otherwise the decision compares the stable MD5-derived
value in [0,1) with granularity 1/10000 against the rate. -/
def ShouldSample (s : SamplerState) (userID endpoint : String) : Bool :=
  let rate0 := (lookupKey s.sampleRates endpoint).getD 0
  let sampleRate := if rate0 = 0 then 1 else rate0
  if 1 ≤ sampleRate then true
  else if sampleRate ≤ 0 then false
  else
    let hashInt := md5HashInt (userID ++ ":" ++ endpoint)
    let randomValue : ℚ := (hashInt % 10000 : ℕ) / 10000
    decide (randomValue < sampleRate)

/-- The clamp applied by both rate setters:
negative rates become 0, rates above 1 become 1. -/
def clampRate (rate : ℚ) : ℚ :=
  let r1 := if rate < 0 then 0 else rate
  if 1 < r1 then 1 else r1

/-- Source `RequestSampler.SetSampleRate`: clamp and store. -/
def SetSampleRate (s : SamplerState) (endpoint : String) (rate : ℚ) :
    SamplerState :=
  { s with sampleRates := setKey s.sampleRates endpoint (clampRate rate) }

/-- Source `RequestSampler.SetGlobalSampleRate`: clamp once and assign the
clamped rate to every already-configured endpoint. -/
def SetGlobalSampleRate (s : SamplerState) (rate : ℚ) : SamplerState :=
  { s with sampleRates :=
      s.sampleRates.map (fun p => (p.1, clampRate rate)) }

/-- Source `RequestSampler.Reset`: drop all configured rates. -/
def Reset (s : SamplerState) : SamplerState :=
  { s with sampleRates := [] }

/-! ## Cross-service event router (kafka_consumer.go) -/

/-- Source `CrossServiceEvent` as decoded from a broker message. -/
structure CrossServiceEvent where
  id : String
  source : String
  eventType : String
  userID : String
  timestamp : Int
  data : GoMap
  correlationID : String

/-- The router's shared state: the handler registry (event type to the
handler installed for it, named by its source method) and the running
flag.  Handler functions are identified by name; the claims only
concern which handler, if any, a message is dispatched to. -/
structure RouterState where
  handlers : List (String × String)
  running : Bool

/-- The registry built by `registerDefaultHandlers`. -/
def defaultHandlers : List (String × String) :=
  [ ("billing.user.subscription.created", "handleBillingEvent")
  , ("billing.user.subscription.updated", "handleBillingEvent")
  , ("billing.user.subscription.cancelled", "handleBillingEvent")
  , ("billing.payment.completed", "handleBillingEvent")
  , ("billing.payment.failed", "handleBillingEvent")
  , ("auth.user.login", "handleAuthEvent")
  , ("auth.user.logout", "handleAuthEvent")
  , ("auth.user.registered", "handleAuthEvent")
  , ("auth.user.password.changed", "handleAuthEvent")
  , ("payments.transaction.completed", "handlePaymentEvent")
  , ("payments.transaction.failed", "handlePaymentEvent")
  , ("payments.refund.processed", "handlePaymentEvent")
  , ("analytics.page.view", "handleAnalyticsEvent")
  , ("analytics.user.action", "handleAnalyticsEvent")
  , ("analytics.conversion", "handleAnalyticsEvent") ]

/-- Source `KafkaConsumerService.routeEvent`: look the event type up in the
handler registry by exact string match; with no handler the event is
logged and dropped (`none`, state untouched), otherwise the handler is
dispatched asynchronously (modelled by returning the chosen handler and
the event).  The function returns no error in either case. -/
def routeEvent (st : RouterState) (event : CrossServiceEvent) :
    RouterState × Option (String × CrossServiceEvent) :=
  match lookupKey st.handlers event.eventType with
  | none => (st, none)
  | some h => (st, some (h, event))

/-! ## Association-list lemmas shared by the claim proofs -/

theorem lookupKey_setKey_self {α : Type} (m : List (String × α))
    (k : String) (v : α) : lookupKey (setKey m k v) k = some v := by
  induction m with
  | nil => simp [setKey, lookupKey]
  | cons p rest ih =>
      obtain ⟨k2, v2⟩ := p
      by_cases h : k2 = k
      · simp [setKey, lookupKey, h]
      · simp [setKey, lookupKey, h, ih]

theorem lookupKey_setKey_ne {α : Type} (m : List (String × α))
    (k k2 : String) (v : α) (h : k ≠ k2) :
    lookupKey (setKey m k v) k2 = lookupKey m k2 := by
  induction m with
  | nil => simp [setKey, lookupKey, h]
  | cons p rest ih =>
      obtain ⟨k3, v3⟩ := p
      by_cases h3 : k3 = k
      · simp [setKey, lookupKey, h3, h]
      · simp [setKey, lookupKey, h3, ih]

theorem lookupKey_addIfAbsent_ne (m : GoMap) (k k2 : String) (v : GoVal)
    (h : k ≠ k2) :
    lookupKey (addIfAbsent m k v) k2 = lookupKey m k2 := by
  unfold addIfAbsent
  split
  · rfl
  · exact lookupKey_setKey_ne m k k2 v h

theorem mem_setKey {α : Type} {m : List (String × α)} {k : String} {v : α}
    {p : String × α} (hp : p ∈ setKey m k v) : p ∈ m ∨ p = (k, v) := by
  induction m with
  | nil => simpa [setKey] using hp
  | cons q rest ih =>
      obtain ⟨k2, v2⟩ := q
      by_cases h : k2 = k
      · simp [setKey, h] at hp
        rcases hp with hp | hp
        · exact Or.inr (by simp [hp])
        · exact Or.inl (List.mem_cons_of_mem _ hp)
      · simp [setKey, h] at hp
        rcases hp with hp | hp
        · exact Or.inl (by simp [hp])
        · rcases ih hp with h2 | h2
          · exact Or.inl (List.mem_cons_of_mem _ h2)
          · exact Or.inr h2

theorem setKey_absent {α : Type} {m : List (String × α)} {k : String}
    (h : lookupKey m k = none) (v : α) : setKey m k v = m ++ [(k, v)] := by
  induction m with
  | nil => simp [setKey]
  | cons q rest ih =>
      obtain ⟨k2, v2⟩ := q
      by_cases h2 : k2 = k
      · simp [lookupKey, h2] at h
      · simp [lookupKey, h2] at h
        simp [setKey, h2, ih h]

theorem lookupKey_append_right_none {α : Type} {m : List (String × α)}
    {k k2 : String} (h : lookupKey m k = none) (h2 : k2 ≠ k) (v : α) :
    lookupKey (m ++ [(k2, v)]) k = none := by
  induction m with
  | nil => simp [lookupKey, h2]
  | cons q rest ih =>
      obtain ⟨k3, v3⟩ := q
      by_cases h3 : k3 = k
      · simp [lookupKey, h3] at h
      · simp [lookupKey, h3] at h ⊢
        exact ih h

/-! ## Claim theorems -/

/-- C9 witness state: the router right after `registerDefaultHandlers`,
running. -/
def router0 : RouterState := { handlers := defaultHandlers, running := true }

/-- C9 witness event: a decoded message whose type has no registered
handler. -/
def ev9 : CrossServiceEvent :=
  { id := "m1", source := "billing", eventType := "billing.unknown.kind"
    userID := "u1", timestamp := 0, data := [], correlationID := "c1" }

/-- C9: a decoded cross-service event whose event type has no registered
handler (exact-match lookup) is dropped: routeEvent returns without
dispatching any handler, without an error, and with the router state —
handler registry and running flag — unchanged. -/
theorem routeEvent_unregistered_drops (st : RouterState)
    (e : CrossServiceEvent)
    (h : lookupKey st.handlers e.eventType = none) :
    routeEvent st e = (st, none) := by
  unfold routeEvent
  rw [h]

/-- C9 witness: the default registry has no handler for
"billing.unknown.kind", and such a message is dropped with the router
state unchanged. -/
theorem routeEvent_unregistered_drops_witness :
    lookupKey router0.handlers ev9.eventType = none ∧
    routeEvent router0 ev9 = (router0, none) :=
  ⟨by decide, routeEvent_unregistered_drops router0 ev9 (by decide)⟩

/-- C5 counterexample state: a fresh sampler after
SetSampleRate("ep", 0.0). -/
def samplerZero : SamplerState := SetSampleRate (newRequestSampler 0) "ep" 0

/-- C5 counterexample: after explicitly setting the rate of endpoint
"ep" to 0.0, ShouldSample("u1", "ep") returns true, not false — the
stored 0.0 is indistinguishable from the Go zero value of a missing
key, so the lookup defaults the rate to 1.0. -/
theorem shouldSample_zero_counterexample :
    ShouldSample samplerZero "u1" "ep" = true := by decide

/-- C5 amended: after SetSampleRate(endpoint, 0.0) the sampler treats
the endpoint as unconfigured — for every user the decision defaults to
the 100% rate and ShouldSample returns true (never false). -/
theorem shouldSample_zero_defaults_to_true (s : SamplerState)
    (userID endpoint : String) :
    ShouldSample (SetSampleRate s endpoint 0) userID endpoint = true := by
  unfold ShouldSample SetSampleRate
  rw [lookupKey_setKey_self]
  norm_num [clampRate]

/-- C6 witness states: identical rate maps, different generator seeds. -/
def samplerA : SamplerState := { sampleRates := [("ep", 1)], rngSeed := 42 }

/-- C6 witness second state, differing from samplerA only in the seed. -/
def samplerB : SamplerState := { sampleRates := [("ep", 1)], rngSeed := 7 }

/-- C6: ShouldSample is a pure function of the configured rate map and
the (userId, endpoint) pair — two sampler states that agree on the rate
map but may differ arbitrarily in their seeded random generator yield
the same decision, so repeated calls with the same inputs return the
same boolean; and a configured rate of at least 1.0 always samples. -/
theorem shouldSample_deterministic (s1 s2 : SamplerState)
    (userID endpoint : String) (h : s1.sampleRates = s2.sampleRates) :
    ShouldSample s1 userID endpoint = ShouldSample s2 userID endpoint ∧
    (∀ r, lookupKey s1.sampleRates endpoint = some r → 1 ≤ r →
      ShouldSample s1 userID endpoint = true) := by
  constructor
  · unfold ShouldSample
    rw [h]
  · intro r hr h1
    unfold ShouldSample
    rw [hr]
    by_cases h0 : r = 0
    · subst h0
      norm_num
    · simp only [Option.getD_some, if_neg h0, if_pos h1]

/-- C6 witness: at rate 1.0 for endpoint "ep", two states with
different seeds agree and the decision is true. -/
theorem shouldSample_deterministic_witness :
    samplerA.sampleRates = samplerB.sampleRates ∧
    (ShouldSample samplerA "u1" "ep" = ShouldSample samplerB "u1" "ep" ∧
     (∀ r, lookupKey samplerA.sampleRates "ep" = some r → 1 ≤ r →
       ShouldSample samplerA "u1" "ep" = true)) :=
  ⟨rfl, shouldSample_deterministic samplerA samplerB "u1" "ep" rfl⟩

/-- The invariant of C10: every configured rate lies in [0, 1]. -/
def ratesInRange (s : SamplerState) : Prop :=
  ∀ p ∈ s.sampleRates, 0 ≤ p.2 ∧ p.2 ≤ 1

theorem clampRate_eq (r : ℚ) : clampRate r = min 1 (max 0 r) := by
  simp only [clampRate, min_def, max_def]
  split_ifs <;> linarith

theorem clampRate_bounds (r : ℚ) : 0 ≤ clampRate r ∧ clampRate r ≤ 1 := by
  rw [clampRate_eq]
  constructor
  · exact le_min (by norm_num) (le_max_left 0 r)
  · exact min_le_left 1 _

/-- C10: both setters clamp — after SetSampleRate(endpoint, r) the
stored rate is exactly min(1, max(0, r)); and the invariant that every
configured rate lies in [0, 1] is preserved by SetSampleRate,
SetGlobalSampleRate and Reset. -/
theorem sampler_clamp_invariant (s : SamplerState) (endpoint : String)
    (r : ℚ) (hs : ratesInRange s) :
    lookupKey (SetSampleRate s endpoint r).sampleRates endpoint
        = some (min 1 (max 0 r)) ∧
    ratesInRange (SetSampleRate s endpoint r) ∧
    (∀ r2, ratesInRange (SetGlobalSampleRate s r2)) ∧
    ratesInRange (Reset s) := by
  refine ⟨?_, ?_, ?_, ?_⟩
  · simp [SetSampleRate, lookupKey_setKey_self, clampRate_eq]
  · intro p hp
    rcases mem_setKey hp with h | h
    · exact hs p h
    · subst h
      exact clampRate_bounds r
  · intro r2 p hp
    simp only [SetGlobalSampleRate, List.mem_map] at hp
    obtain ⟨q, _, hq⟩ := hp
    subst hq
    exact clampRate_bounds r2
  · intro p hp
    simp [Reset] at hp

/-- C10 witness sampler state with one in-range configured rate. -/
def samplerC : SamplerState := { sampleRates := [("a", 1 / 2)], rngSeed := 0 }

/-- C10 witness: a concrete state satisfies the invariant, and setting
rate 7 on endpoint "b" stores exactly min(1, max(0, 7)) while keeping
all rates in range. -/
theorem sampler_clamp_invariant_witness :
    ratesInRange samplerC ∧
    (lookupKey (SetSampleRate samplerC "b" 7).sampleRates "b"
        = some (min 1 (max 0 7)) ∧
     ratesInRange (SetSampleRate samplerC "b" 7) ∧
     (∀ r2, ratesInRange (SetGlobalSampleRate samplerC r2)) ∧
     ratesInRange (Reset samplerC)) := by
  have hs : ratesInRange samplerC := by
    intro p hp
    simp [samplerC] at hp
    subst hp
    norm_num
  exact ⟨hs, sampler_clamp_invariant samplerC "b" 7 hs⟩

/-- C4: sliding-window rate limiting for a fixed (userId, endpoint)
key.  If the timestamps recorded for the key all still lie inside the
window at time `now` and their number has reached the limit, the next
call is rejected; and once more than the window has elapsed since every
recorded timestamp, the next call is admitted again (the stale
timestamps are purged before the admission check), provided the limit
is positive. -/
theorem rateLimiter_window (st : RLState) (userID endpoint : String)
    (now : Int) :
    ((∀ t ∈ (lookupKey st.requests (userID ++ ":" ++ endpoint)).getD [],
        now - st.window < t) →
      st.limit ≤
        ((lookupKey st.requests (userID ++ ":" ++ endpoint)).getD []).length →
      (AllowRequest st userID endpoint now).1 = false) ∧
    ((∀ t ∈ (lookupKey st.requests (userID ++ ":" ++ endpoint)).getD [],
        st.window < now - t) →
      0 < st.limit →
      (AllowRequest st userID endpoint now).1 = true) := by
  constructor
  · intro hin hlen
    unfold AllowRequest cleanupOldRequests
    cases hl : lookupKey st.requests (userID ++ ":" ++ endpoint) with
    | none =>
        rw [hl] at hlen
        simp only [Option.getD_none, List.length_nil] at hlen
        simp [hl, Nat.le_zero.mp hlen]
    | some reqs =>
        rw [hl] at hin hlen
        simp only [Option.getD_some] at hin hlen
        have hfil : reqs.filter (fun t => decide (now - st.window < t)) = reqs :=
          List.filter_eq_self.mpr (fun t ht => decide_eq_true (hin t ht))
        simp only [hl, lookupKey_setKey_self, Option.getD_some, hfil]
        simp [hlen]
  · intro hout hpos
    unfold AllowRequest cleanupOldRequests
    cases hl : lookupKey st.requests (userID ++ ":" ++ endpoint) with
    | none =>
        simp [hl, Nat.not_le.mpr hpos]
    | some reqs =>
        rw [hl] at hout
        simp only [Option.getD_some] at hout
        have hfil : reqs.filter (fun t => decide (now - st.window < t)) = [] := by
          rw [List.filter_eq_nil_iff]
          intro t ht
          simp only [decide_eq_true_eq]
          have := hout t ht
          omega
        simp only [hl, lookupKey_setKey_self, Option.getD_some, hfil]
        simp [Nat.not_le.mpr hpos]

/-- C4 witness state for the rejection half: window 10, limit 1, one
admitted timestamp at 5 still inside the window at time 6. -/
def rlFull : RLState := { requests := [("u1:ep", [5])], limit := 1, window := 10 }

/-- C4 witness state for the re-admission half: window 10, the only
recorded timestamp 5 is more than a window old at time 100. -/
def rlStale : RLState := { requests := [("u1:ep", [5])], limit := 1, window := 10 }

/-- C4 witness: with limit 1 and window 10, the key "u1:ep" holding an
in-window timestamp rejects at time 6, and the same key holding only a
stale timestamp admits again at time 100. -/
theorem rateLimiter_window_witness :
    (AllowRequest rlFull "u1" "ep" 6).1 = false ∧
    (AllowRequest rlStale "u1" "ep" 100).1 = true :=
  ⟨(rateLimiter_window rlFull "u1" "ep" 6).1 (by decide) (by decide),
   (rateLimiter_window rlStale "u1" "ep" 100).2 (by decide) (by decide)⟩

/-! ## C7: the GetUsage time-window scan -/

theorem scanLoop_total (userID : String) (startD endD : Int)
    (evs : List AnalyticsEvent) (acc : List (String × Int) × Int) :
    (scanLoop userID startD endD evs acc).2 =
      acc.2 + (evs.countP (fun e => eventInRange e userID startD endD) : Int) := by
  induction evs generalizing acc with
  | nil => simp [scanLoop]
  | cons e rest ih =>
      by_cases h : eventInRange e userID startD endD
      · simp only [scanLoop, if_pos h, List.countP_cons, h, if_true]
        rw [ih]
        push_cast
        ring
      · simp only [scanLoop, if_neg h, List.countP_cons, h]
        simp only [Bool.false_eq_true, if_false, Nat.add_zero]
        exact ih acc

/-- C7 amended: for every event list and successfully parsed bounds,
the GetUsage scan counts exactly the events whose user id matches and
whose timestamp lies in the OPEN interval (start, end + 24h): strictly
after the start bound (an event timestamped exactly at `start` is
excluded, because the source tests `Timestamp.After(startDate)`) and
strictly before end + 24h. -/
theorem getUsage_counts_open_interval (evs : List AnalyticsEvent)
    (userID : String) (startD endD : Int) :
    (scanEvents evs userID startD endD).2 =
      (evs.countP (fun e => eventInRange e userID startD endD) : Int) ∧
    (∀ e, eventInRange e userID startD endD = true ↔
      (e.userID = userID ∧ startD < e.timestamp ∧
       e.timestamp < endD + nsPerDay)) := by
  constructor
  · simpa [scanEvents] using
      scanLoop_total userID startD endD evs ([], 0)
  · intro e
    simp [eventInRange, and_assoc]

/-- Modelled from the spec: membership of an event in the queried
window as C7 states it — user id matches and the timestamp falls in the
half-open interval [start, end + 24h), the start bound included. -/
def specIncluded (userID : String) (startD endD : Int)
    (e : AnalyticsEvent) : Bool :=
  decide (e.userID = userID) && decide (startD ≤ e.timestamp)
    && decide (e.timestamp < endD + nsPerDay)

/-- C7 counterexample event: stored for user "u1" with timestamp
exactly at the start bound 0. -/
def boundaryEvent : AnalyticsEvent :=
  { id := "e1", eventType := "page_view", userID := "u1", page := ""
    timestamp := 0, properties := [], apiKey := "k"
    billingEventID := "b1", source := "" }

/-- C7 counterexample: an event timestamped exactly at the start bound
lies in the claimed half-open interval [start, end + 24h), yet the
GetUsage scan does not count it — the code requires strictly-after. -/
theorem getUsage_boundary_counterexample :
    specIncluded "u1" 0 0 boundaryEvent = true ∧
    (scanEvents [boundaryEvent] "u1" 0 0).2 = 0 := by
  constructor <;> decide

/-! ## C8: the billing summary pricing -/

theorem calcBillingLoop_spec (m : List (String × Int))
    (bd : List (String × ℚ)) (tot : ℚ)
    (hnd : (m.map Prod.fst).Nodup)
    (hdisj : ∀ k ∈ m.map Prod.fst, lookupKey bd k = none) :
    calcBillingLoop m (bd, tot) =
      (bd ++ m.map (fun p => (p.1, (p.2 : ℚ) * perEventRate p.1)),
       tot + (m.map (fun p => ((p.2 : ℚ) * perEventRate p.1))).sum) := by
  induction m generalizing bd tot with
  | nil => simp [calcBillingLoop]
  | cons p rest ih =>
      obtain ⟨t, c⟩ := p
      simp only [List.map_cons, List.nodup_cons] at hnd
      have hbd : lookupKey bd t = none := hdisj t (by simp)
      have hdisj2 : ∀ k ∈ rest.map Prod.fst,
          lookupKey (bd ++ [(t, (c : ℚ) * perEventRate t)]) k = none := by
        intro k hk
        have hkt : t ≠ k := by
          rintro rfl
          exact hnd.1 hk
        exact lookupKey_append_right_none (hdisj k (by simp [hk])) hkt _
      simp only [calcBillingLoop]
      rw [setKey_absent hbd,
        ih (bd ++ [(t, (c : ℚ) * perEventRate t)])
          (tot + (c : ℚ) * perEventRate t) hnd.2 hdisj2]
      rw [Prod.ext_iff]
      constructor
      · simp [List.append_assoc]
      · simp only [List.map_cons, List.sum_cons]
        ring

/-- C8: for a per-type count map with distinct keys (as a Go map
guarantees), the billing summary prices each observed event type at
count times its per-type rate — 0.001 for page_view, 0.002 for click,
0.01 for conversion and 0.0005 for any other type — its TotalCost is
the sum of all cost-breakdown entries, and its Currency is "USD". -/
theorem billing_summary_correct (m : List (String × Int))
    (hnd : (m.map Prod.fst).Nodup) :
    (calculateBillingSummary m).currency = "USD" ∧
    (calculateBillingSummary m).totalCost =
      ((calculateBillingSummary m).costBreakdown.map Prod.snd).sum ∧
    (∀ t c, (t, c) ∈ m →
      (t, (c : ℚ) * perEventRate t) ∈ (calculateBillingSummary m).costBreakdown) ∧
    perEventRate "page_view" = 1 / 1000 ∧
    perEventRate "click" = 2 / 1000 ∧
    perEventRate "conversion" = 1 / 100 ∧
    (∀ t, t ≠ "page_view" → t ≠ "click" → t ≠ "conversion" →
      perEventRate t = 5 / 10000) := by
  have hloop := calcBillingLoop_spec m [] 0 hnd (by intro k _; rfl)
  refine ⟨rfl, ?_, ?_, rfl, rfl, rfl, ?_⟩
  · simp only [calculateBillingSummary, hloop]
    simp only [List.nil_append, List.map_map, zero_add]
    rfl
  · intro t c htc
    simp only [calculateBillingSummary, hloop]
    simp only [List.nil_append]
    exact List.mem_map_of_mem _ htc
  · intro t h1 h2 h3
    unfold perEventRate
    split
    · simp_all
    · simp_all
    · simp_all
    · rfl

/-- C8 witness: a concrete two-type count map with distinct keys, and
the theorem's pricing conclusions at it. -/
theorem billing_summary_correct_witness :
    (([("page_view", (1 : Int)), ("click", 1)].map Prod.fst).Nodup) ∧
    ((calculateBillingSummary [("page_view", 1), ("click", 1)]).currency = "USD" ∧
     (calculateBillingSummary [("page_view", 1), ("click", 1)]).totalCost =
       ((calculateBillingSummary [("page_view", 1), ("click", 1)]).costBreakdown.map
         Prod.snd).sum ∧
     (∀ t c, (t, c) ∈ [("page_view", (1 : Int)), ("click", 1)] →
       (t, (c : ℚ) * perEventRate t) ∈
         (calculateBillingSummary [("page_view", 1), ("click", 1)]).costBreakdown) ∧
     perEventRate "page_view" = 1 / 1000 ∧
     perEventRate "click" = 2 / 1000 ∧
     perEventRate "conversion" = 1 / 100 ∧
     (∀ t, t ≠ "page_view" → t ≠ "click" → t ≠ "conversion" →
       perEventRate t = 5 / 10000)) :=
  ⟨by decide,
   billing_summary_correct [("page_view", 1), ("click", 1)] (by decide)⟩

/-! ## C1–C3: the TrackEvent pipeline -/

theorem uuidString_ne_empty (n : Nat) : uuidString n ≠ "" := by
  intro h
  have hlen := congrArg String.length h
  simp only [uuidString, String.length_append] at hlen
  have h5 : ("uuid-" : String).length = 5 := rfl
  have h0 : ("" : String).length = 0 := rfl
  omega

theorem enrich_event_type (m : GoMap) (ak uid : String) (now : Int)
    (ctr : Nat) :
    lookupKey (enrichEventData m ak uid now ctr).1 "event_type" =
      lookupKey m "event_type" := by
  simp only [enrichEventData]
  rw [lookupKey_addIfAbsent_ne _ "properties" "event_type" _ (by decide),
      lookupKey_addIfAbsent_ne _ "source" "event_type" _ (by decide),
      lookupKey_addIfAbsent_ne _ "user_agent" "event_type" _ (by decide),
      lookupKey_addIfAbsent_ne _ "ip_address" "event_type" _ (by decide),
      lookupKey_addIfAbsent_ne _ "session_id" "event_type" _ (by decide),
      lookupKey_addIfAbsent_ne _ "timestamp" "event_type" _ (by decide)]

theorem validate_ok_event_type {schemas : List (String × EventSchema)}
    {eventData : GoMap} (h : ValidateEvent schemas eventData = .ok ()) :
    ∃ et, lookupKey eventData "event_type" = some (.vstr et) := by
  unfold ValidateEvent at h
  cases hl : lookupKey eventData "event_type" with
  | none =>
      rw [hl] at h
      exact absurd h (by simp)
  | some v =>
      rw [hl] at h
      cases v with
      | vstr s => exact ⟨s, rfl⟩
      | vnum q => exact absurd h (by simp)
      | vbool b => exact absurd h (by simp)
      | vtime t => exact absurd h (by simp)
      | vnull => exact absurd h (by simp)
      | vmap entries => exact absurd h (by simp)
      | varr elems => exact absurd h (by simp)

theorem trackEvent_ok_exists (st : ServiceState) (eventData : GoMap)
    (apiKey userID : String) (now : Int) (billingErr : Bool)
    (hval : ValidateEvent st.schemas eventData = .ok ()) :
    ∃ ev st2,
      TrackEvent st eventData apiKey userID now billingErr = (.ok ev, st2) ∧
      ev.id ≠ "" ∧ ev.billingEventID ≠ "" ∧
      ev.eventType = asString (lookupKey eventData "event_type") ∧
      ev.userID = userID ∧
      lookupKey st2.events ev.id = some ev := by
  simp only [TrackEvent, hval, ite_self]
  refine ⟨_, _, rfl, ?_, ?_, ?_, rfl, ?_⟩
  · exact uuidString_ne_empty _
  · exact uuidString_ne_empty _
  · show asString (lookupKey (enrichEventData eventData apiKey userID now
      st.uuidCtr).1 "event_type") = asString (lookupKey eventData "event_type")
    rw [enrich_event_type]
  · exact lookupKey_setKey_self _ _ _

/-- C1: every event-data map that passes schema validation is tracked
successfully: TrackEvent returns, with no error, an AnalyticsEvent with
a non-empty ID and a non-empty BillingEventID whose EventType equals
the payload's event_type, and the event is inserted into the in-memory
event store under its ID. -/
theorem trackEvent_valid_succeeds (st : ServiceState) (eventData : GoMap)
    (apiKey userID : String) (now : Int) (billingErr : Bool) (et : String)
    (hval : ValidateEvent st.schemas eventData = .ok ())
    (het : lookupKey eventData "event_type" = some (.vstr et)) :
    ∃ ev st2,
      TrackEvent st eventData apiKey userID now billingErr = (.ok ev, st2) ∧
      ev.id ≠ "" ∧ ev.billingEventID ≠ "" ∧ ev.eventType = et ∧
      lookupKey st2.events ev.id = some ev := by
  obtain ⟨ev, st2, heq, hid, hbid, hty, _, hstore⟩ :=
    trackEvent_ok_exists st eventData apiKey userID now billingErr hval
  refine ⟨ev, st2, heq, hid, hbid, ?_, hstore⟩
  rw [hty, het]
  rfl

/-- C1 witness payload: a schema-valid page_view event. -/
def evPage : GoMap :=
  [("event_type", GoVal.vstr "page_view"), ("user_id", GoVal.vstr "u1")]

/-- C1 witness: the concrete page_view payload validates, and tracking
it from the initial service state succeeds with the promised shape. -/
theorem trackEvent_valid_succeeds_witness :
    (ValidateEvent initialService.schemas evPage = .ok () ∧
     lookupKey evPage "event_type" = some (GoVal.vstr "page_view")) ∧
    (∃ ev st2,
      TrackEvent initialService evPage "key1" "u1" 0 false = (.ok ev, st2) ∧
      ev.id ≠ "" ∧ ev.billingEventID ≠ "" ∧ ev.eventType = "page_view" ∧
      lookupKey st2.events ev.id = some ev) :=
  ⟨⟨rfl, rfl⟩,
   trackEvent_valid_succeeds initialService evPage "key1" "u1" 0 false
     "page_view" rfl rfl⟩

/-- C2: when the key event_type is absent or its value is not a
string, TrackEvent returns a validation error, returns no event, and
leaves the whole service state — in particular the event store —
unchanged. -/
theorem trackEvent_invalid_type_fails (st : ServiceState)
    (eventData : GoMap) (apiKey userID : String) (now : Int)
    (billingErr : Bool)
    (h : ∀ s, lookupKey eventData "event_type" ≠ some (.vstr s)) :
    ∃ msg, TrackEvent st eventData apiKey userID now billingErr
        = (.error msg, st) := by
  have hv : ∃ e, ValidateEvent st.schemas eventData = .error e := by
    unfold ValidateEvent
    cases hl : lookupKey eventData "event_type" with
    | none => exact ⟨_, rfl⟩
    | some v =>
        cases v with
        | vstr s => exact absurd hl (h s)
        | vnum q => exact ⟨_, rfl⟩
        | vbool b => exact ⟨_, rfl⟩
        | vtime t => exact ⟨_, rfl⟩
        | vnull => exact ⟨_, rfl⟩
        | vmap entries => exact ⟨_, rfl⟩
        | varr elems => exact ⟨_, rfl⟩
  obtain ⟨e, he⟩ := hv
  refine ⟨"invalid event data: " ++ e, ?_⟩
  simp only [TrackEvent, he]

/-- C2 witness payload: event_type present but numeric. -/
def evBadType : GoMap := [("event_type", GoVal.vnum 123)]

/-- C2 witness: the concrete payload with a numeric event_type is
rejected and the initial service state is returned untouched. -/
theorem trackEvent_invalid_type_witness :
    (∀ s, lookupKey evBadType "event_type" ≠ some (GoVal.vstr s)) ∧
    (∃ msg, TrackEvent initialService evBadType "key1" "u1" 0 false
        = (.error msg, initialService)) := by
  have h : ∀ s, lookupKey evBadType "event_type" ≠ some (GoVal.vstr s) := by
    intro s hcontra
    have hv : some (GoVal.vnum 123) = some (GoVal.vstr s) := hcontra
    exact GoVal.noConfusion (Option.some.inj hv)
  exact ⟨h,
    trackEvent_invalid_type_fails initialService evBadType "key1" "u1" 0
      false h⟩

/-- C3: on a validated payload a billing correlation failure does not
fail TrackEvent — the run with a failing billing call is literally
equal to the run with a successful one (same fresh non-empty
BillingEventID, same stored event, no error returned). -/
theorem trackEvent_billing_failure_masked (st : ServiceState)
    (eventData : GoMap) (apiKey userID : String) (now : Int)
    (hval : ValidateEvent st.schemas eventData = .ok ()) :
    TrackEvent st eventData apiKey userID now true =
      TrackEvent st eventData apiKey userID now false ∧
    ∃ ev st2,
      TrackEvent st eventData apiKey userID now true = (.ok ev, st2) ∧
      ev.billingEventID ≠ "" ∧ lookupKey st2.events ev.id = some ev := by
  constructor
  · simp only [TrackEvent, hval, ite_self]
  · obtain ⟨ev, st2, heq, _, hbid, _, _, hstore⟩ :=
      trackEvent_ok_exists st eventData apiKey userID now true hval
    exact ⟨ev, st2, heq, hbid, hstore⟩

/-- C3 witness: tracking the concrete page_view payload with a failing
billing call equals tracking it with a successful one, and still
stores an event with a non-empty billing event id. -/
theorem trackEvent_billing_failure_masked_witness :
    (ValidateEvent initialService.schemas evPage = .ok ()) ∧
    (TrackEvent initialService evPage "key1" "u1" 0 true =
       TrackEvent initialService evPage "key1" "u1" 0 false ∧
     ∃ ev st2,
       TrackEvent initialService evPage "key1" "u1" 0 true = (.ok ev, st2) ∧
       ev.billingEventID ≠ "" ∧ lookupKey st2.events ev.id = some ev) :=
  ⟨rfl,
   trackEvent_billing_failure_masked initialService evPage "key1" "u1" 0 rfl⟩

end Analytics
